import Mathlib

/-!
Verification development for the geometric-mapping and matrix-free batching
subsystem of a finite-element library.

The development shallowly embeds, over exact rational (and, for the 2d
closed-form inversion, real) arithmetic:

* the damped Newton inversion `do_transform_real_to_unit_cell_internal`
  (source/fe/mapping_q_generic.cc, lines 897-1052) together with the public
  wrapper that turns its sentinel failure value into a thrown
  `ExcTransformationFailed` (lines 2184-2301), and the batch point inverter
  `transform_points_real_to_unit_cell` (lines 2305-2347);
* the codimension-one damped Newton loop
  `do_transform_real_to_unit_cell_internal_codim1` (lines 1059-1179);
* the degree-one two-dimensional closed-form inversion
  `internal::MappingQ1::transform_real_to_unit_cell` (lines 81-190);
* the cell-batch (macro-cell) construction loop of `internal::compute_dof_info`
  (include/deal.II/matrix_free/matrix_free.templates.h, lines 1241-1267) and
  its category/threading compatibility check (lines 961-972);
* the constraint-pool construction of `MatrixFree::initialize_indices`
  (lines 1340-1363);
* the cell-similarity guarded update functions used by
  `MappingQGeneric::fill_fe_values` (mapping_q_generic.cc, lines 1409-1483,
  1491-1942, 2491-2679).

Machine `double`/`long double` values are modelled as exact rationals
(respectively reals); the iterative loops are modelled with an explicit fuel
argument whose exhaustion is proved unreachable at the fuel used by the source.
-/

/-- A `dim`-dimensional point/vector with rational coordinates (models
`Point<dim>` / `Tensor<1,dim>` over exact arithmetic). -/
abbrev VecQ (n : Nat) : Type := Fin n → ℚ

/-- A rank-2 tensor (models `Tensor<2,dim>` over exact arithmetic). -/
abbrev MatQ (n : Nat) : Type := Fin n → Fin n → ℚ

/-- The squared Euclidean norm of a vector, exactly `Tensor<1,n>::norm_square()`. -/
def normSq {n : Nat} (v : VecQ n) : ℚ := ∑ i, v i * v i

/-- The squared Frobenius norm of a rank-2 tensor, exactly
`Tensor<2,n>::norm_square()`. -/
def frobSq {n : Nat} (A : MatQ n) : ℚ := ∑ i, ∑ j, A i j * A i j

/-- Matrix-vector contraction, `Tensor<2,n> * Tensor<1,n>`. -/
def mulVecQ {n : Nat} (A : MatQ n) (v : VecQ n) : VecQ n :=
  fun i => ∑ j, A i j * v j

/-- Determinant by Laplace expansion along the first row.  Models
`determinant(Tensor<2,n>)`, which the library implements as the explicit
cofactor formulas for each dimension.  (The tensor arithmetic header is not
part of the excerpt; the expansion below is the standard cofactor determinant
those formulas implement, and `detQ_eq_det` ties it to Mathlib's
determinant.) -/
def detQ : (n : Nat) → MatQ n → ℚ
  | 0, _ => 1
  | n + 1, A =>
    ∑ j : Fin (n + 1), (-1 : ℚ) ^ (j : ℕ) * A 0 j *
      detQ n (fun i k => A i.succ (j.succAbove k))

/-- Matrix inverse by the adjugate/cofactor formula.  Models
`invert(Tensor<2,n>)`, which the library implements as the explicit
inverse formulas for each dimension (always called after a positive
determinant check). -/
def matInvQ : (n : Nat) → MatQ n → MatQ n
  | 0, _ => fun i _ => i.elim0
  | n + 1, A => fun i j =>
    (-1 : ℚ) ^ ((i : ℕ) + (j : ℕ)) *
      detQ n (fun a b => A (j.succAbove a) (i.succAbove b)) / detQ (n + 1) A

/-- Failure modes of the Newton inversion
`do_transform_real_to_unit_cell_internal`: the three program points that
return the `invalid_point` sentinel (first coordinate set to infinity). -/
inductive NewtonFailure : Type where
  | detNonPositive
  | lineSearchFailed
  | iterationLimitExceeded
  deriving DecidableEq

/-- Result of the Newton inversion.  `ok` models a normal return of the
converged unit-cell point, `fail` models returning the `invalid_point`
sentinel (its `NewtonFailure` records which return site produced it), and
`outOfFuel` is an artefact of the fuel-indexed embedding that is proved
unreachable at the fuel the source uses. -/
inductive NewtonResult (n : Nat) : Type where
  | ok (p_unit : VecQ n)
  | fail (r : NewtonFailure)
  | outOfFuel
  deriving DecidableEq

/-- Result of the step-halving line search inside the Newton iteration. -/
inductive LineSearchResult (n : Nat) : Type where
  | success (p_unit : VecQ n) (p_real : VecQ n × MatQ n) (f : VecQ n)
  | failStep
  | outOfFuel
  deriving DecidableEq

/-- Convergence tolerance `eps = 1.e-11` of the Newton iteration
(mapping_q_generic.cc line 966). -/
def newton_eps : ℚ := 1 / 10 ^ 11

/-- Iteration cap `newton_iteration_limit = 20` (line 967). -/
def newton_iteration_limit : Nat := 20

/-- The inner line-search loop (lines 995-1042): starting from step length 1,
try `p_unit - step_length * delta`; accept as soon as `‖f_trial‖² < ‖f‖²`,
otherwise halve the step while it exceeds `0.05`, and give up once it does
not.  `F` stands for `compute_mapped_location_of_point` applied to the cell's
support points, 1d polynomials and renumbering: it returns the mapped point
and the Jacobian (transposed gradient) at a unit-cell point.  The `fuel`
argument bounds the halvings; `line_search` supplies fuel `6`, which
`line_search_aux_ne_outOfFuel` proves sufficient (step lengths visited are
`1, 1/2, 1/4, 1/8, 1/16, 1/32` and `1/32 ≤ 0.05` stops the loop). -/
def line_search_aux {n : Nat} (F : VecQ n → VecQ n × MatQ n)
    (p p_unit f delta : VecQ n) : ℚ → Nat → LineSearchResult n
  | _, 0 => .outOfFuel
  | step_length, fuel + 1 =>
    let p_unit_trial : VecQ n := fun i => p_unit i - step_length * delta i
    let p_real_trial := F p_unit_trial
    let f_trial : VecQ n := fun i => p_real_trial.1 i - p i
    if normSq f_trial < normSq f then
      .success p_unit_trial p_real_trial f_trial
    else if step_length > 1 / 20 then
      line_search_aux F p p_unit f delta (step_length / 2) fuel
    else
      .failStep

/-- The line search as invoked by the Newton loop: initial step length 1. -/
def line_search {n : Nat} (F : VecQ n → VecQ n × MatQ n)
    (p p_unit f delta : VecQ n) : LineSearchResult n :=
  line_search_aux F p p_unit f delta 1 6

/-- One-pass-at-a-time embedding of the outer `do { ... } while` Newton loop
(lines 972-1049).  State: current iterate `p_unit`, the pair
`p_real = (mapped point, Jacobian)` at `p_unit`, the residual
`f = p_real.1 - p`, and the iteration counter.  Each pass: fail if
`det(J) ≤ 0`; solve `J δ = f` with the explicit inverse; run the line search
(failure propagates); bump the counter and fail once it exceeds the cap;
return the iterate once the Jacobian-inverse-weighted residual norm is within
tolerance; otherwise loop.  `do_transform_real_to_unit_cell_internal` supplies
fuel `newton_iteration_limit + 1`, which the theorems prove sufficient. -/
def do_transform_aux {n : Nat} (F : VecQ n → VecQ n × MatQ n) (p : VecQ n) :
    Nat → VecQ n → VecQ n × MatQ n → VecQ n → Nat → NewtonResult n
  | 0, _, _, _, _ => .outOfFuel
  | fuel + 1, p_unit, p_real, f, newton_iteration =>
    let df := p_real.2
    if detQ n df ≤ 0 then .fail .detNonPositive
    else
      let df_inverse := matInvQ n df
      let delta := mulVecQ df_inverse f
      match line_search F p p_unit f delta with
      | .outOfFuel => .outOfFuel
      | .failStep => .fail .lineSearchFailed
      | .success p_unit' p_real' f' =>
        if newton_iteration + 1 > newton_iteration_limit then
          .fail .iterationLimitExceeded
        else if normSq (mulVecQ df_inverse f') ≤ newton_eps * newton_eps then
          .ok p_unit'
        else
          do_transform_aux F p fuel p_unit' p_real' f' (newton_iteration + 1)

/-- The Newton inversion for `dim == spacedim`
(`do_transform_real_to_unit_cell_internal`, lines 897-1052): evaluate the map
and Jacobian at the initial guess, return early if
`‖f‖² < 1e-24 * ‖J‖²` already holds, else run the Newton loop. -/
def do_transform_real_to_unit_cell_internal {n : Nat}
    (F : VecQ n → VecQ n × MatQ n) (p initial_p_unit : VecQ n) :
    NewtonResult n :=
  let p_real := F initial_p_unit
  let f : VecQ n := fun i => p_real.1 i - p i
  if normSq f < 1 / 10 ^ 24 * frobSq p_real.2 then .ok initial_p_unit
  else
    do_transform_aux F p (newton_iteration_limit + 1) initial_p_unit p_real f 0

/-- The failure-conversion tail of the public
`MappingQGeneric::transform_real_to_unit_cell` (lines 2293-2300): run the
Newton inversion with the supplied initial guess; if it produced the invalid
(sentinel) point, throw `ExcTransformationFailed` (modelled by
`Except.error`), otherwise return the unit-cell point. -/
def transform_real_to_unit_cell_general {n : Nat}
    (F : VecQ n → VecQ n × MatQ n) (p initial_p_unit : VecQ n) :
    Except Unit (VecQ n) :=
  match do_transform_real_to_unit_cell_internal F p initial_p_unit with
  | .ok p_unit => .ok p_unit
  | .fail _ => .error ()
  | .outOfFuel => .error ()

/-- Modelled from the spec: `GeometryInfo<dim>::project_to_unit_cell` (the
header defining it is not part of the excerpt) — "guess is projected into the
reference cell's valid range before Newton starts", i.e. each coordinate is
clamped to `[0,1]`. -/
def project_to_unit_cell {n : Nat} (q : VecQ n) : VecQ n :=
  fun i => max 0 (min 1 (q i))

/-- `MappingQGeneric::transform_points_real_to_unit_cell` (lines 2305-2347):
invert every point of the list with the Newton iteration, starting from the
clamped affine initial guess (`initial_guess` stands for the inverted affine
cell approximation computed from the first `2^dim` support points, which
lives outside the excerpt).  A failed inversion stores the sentinel point
(first coordinate infinity, modelled `none`); successful points store the
converged coordinates (`some`). -/
def transform_points_real_to_unit_cell {n : Nat}
    (F : VecQ n → VecQ n × MatQ n) (initial_guess : VecQ n → VecQ n)
    (real_points : List (VecQ n)) : List (Option (VecQ n)) :=
  real_points.map fun p =>
    match do_transform_real_to_unit_cell_internal F p
        (project_to_unit_cell (initial_guess p)) with
    | .ok q => some q
    | .fail _ => none
    | .outOfFuel => none

/-- Dot product of two vectors (`Tensor<1,m> * Tensor<1,m>`). -/
def dotQ {m : Nat} (a b : VecQ m) : ℚ := ∑ i, a i * b i

/-- Result of the codimension-one damped Newton loop
`do_transform_real_to_unit_cell_internal_codim1` (lines 1059-1179).
`failed` models the `AssertThrow(loop < loop_limit, ExcTransformationFailed)`
exit; `outOfFuel` is the fuel artefact, proved unreachable at the fuel the
embedding supplies. -/
inductive Codim1Result (n : Nat) : Type where
  | ok (p_unit : VecQ n)
  | failed
  | outOfFuel
  deriving DecidableEq

/-- Iteration cap `loop_limit = 10` of the codimension-one loop (line 1121). -/
def codim1_loop_limit : Nat := 10

/-- First derivative `DF[j] = Σ_k grad_phi_k[j] * point_k` of the
codimension-one forward map (lines 1091-1103, recomputed at lines 1142-1154).
`grad_phi` is the shape-function gradient table produced by
`compute_shape_function_values` at the given unit point, `points` the
mapping support points. -/
def codim1_DF {n : Nat} (n_shapes : Nat) (grad_phi : VecQ n → Nat → Fin n → ℚ)
    (points : Nat → VecQ (n + 1)) (p_unit : VecQ n) : Fin n → VecQ (n + 1) :=
  fun j i => ∑ k ∈ Finset.range n_shapes, grad_phi p_unit k j * points k i

/-- Second derivative `D2F[j][l] = Σ_k hessian_k[j][l] * point_k` of the
codimension-one forward map (same loops as `codim1_DF`). -/
def codim1_D2F {n : Nat} (n_shapes : Nat)
    (hessian_phi : VecQ n → Nat → Fin n → Fin n → ℚ)
    (points : Nat → VecQ (n + 1)) (p_unit : VecQ n) :
    Fin n → Fin n → VecQ (n + 1) :=
  fun j l i => ∑ k ∈ Finset.range n_shapes, hessian_phi p_unit k j l * points k i

/-- The mapped location `F(ξ) = Σ_k phi_k(ξ) * point_k`
(`compute_mapped_location_of_point(mdata)`, used at lines 1106 and 1159). -/
def codim1_F {n : Nat} (n_shapes : Nat) (phi : VecQ n → Nat → ℚ)
    (points : Nat → VecQ (n + 1)) (p_unit : VecQ n) : VecQ (n + 1) :=
  fun i => ∑ k ∈ Finset.range n_shapes, phi p_unit k * points k i

/-- The codimension-one residual `f[j] = DF[j] · (p - F(ξ))`
(lines 1109-1110, 1161-1163). -/
def codim1_f {n : Nat} (n_shapes : Nat) (phi : VecQ n → Nat → ℚ)
    (grad_phi : VecQ n → Nat → Fin n → ℚ) (points : Nat → VecQ (n + 1))
    (p : VecQ (n + 1)) (p_unit : VecQ n) : VecQ n :=
  fun j => dotQ (codim1_DF n_shapes grad_phi points p_unit j)
    (fun i => p i - codim1_F n_shapes phi points p_unit i)

/-- The codimension-one Newton matrix
`df[j][l] = -DF[j]·DF[l] + D2F[j][l]·(p - F(ξ))` (lines 1112-1117,
1164-1166). -/
def codim1_df {n : Nat} (n_shapes : Nat) (phi : VecQ n → Nat → ℚ)
    (grad_phi : VecQ n → Nat → Fin n → ℚ)
    (hessian_phi : VecQ n → Nat → Fin n → Fin n → ℚ)
    (points : Nat → VecQ (n + 1)) (p : VecQ (n + 1)) (p_unit : VecQ n) :
    MatQ n :=
  fun j l =>
    -(dotQ (codim1_DF n_shapes grad_phi points p_unit j)
        (codim1_DF n_shapes grad_phi points p_unit l)) +
      dotQ (codim1_D2F n_shapes hessian_phi points p_unit j l)
        (fun i => p i - codim1_F n_shapes phi points p_unit i)

/-- Fuel-indexed embedding of the codimension-one damped Newton loop
`while (f.norm() > eps && loop++ < loop_limit) { ... }` followed by
`AssertThrow(loop < loop_limit, ExcTransformationFailed)` (lines 1120-1178).
The counter `loop` counts completed loop bodies, matching the source's
post-increment counter at loop exit: when the loop exits because the residual
is small, `loop` bodies have run and the assertion checks `loop < 10`; when
it exits because the counter reached the cap, the post-increment has pushed
the counter past the cap and the assertion fails.  The comparison
`f.norm() > eps` is modelled squared (`normSq f > eps²`), equivalent for the
nonnegative source tolerance.  Fuel `codim1_loop_limit + 1` is supplied by
`do_transform_real_to_unit_cell_internal_codim1` and proved sufficient. -/
def do_transform_codim1_aux {n : Nat} (n_shapes : Nat) (phi : VecQ n → Nat → ℚ)
    (grad_phi : VecQ n → Nat → Fin n → ℚ)
    (hessian_phi : VecQ n → Nat → Fin n → Fin n → ℚ)
    (points : Nat → VecQ (n + 1)) (p : VecQ (n + 1)) (eps : ℚ) :
    Nat → VecQ n → Nat → Codim1Result n
  | 0, _, _ => .outOfFuel
  | fuel + 1, p_unit, loop =>
    let f := codim1_f n_shapes phi grad_phi points p p_unit
    if normSq f ≤ eps * eps then
      if loop < codim1_loop_limit then .ok p_unit else .failed
    else if loop < codim1_loop_limit then
      let df := codim1_df n_shapes phi grad_phi hessian_phi points p p_unit
      let d := mulVecQ (matInvQ n df) f
      do_transform_codim1_aux n_shapes phi grad_phi hessian_phi points p eps
        fuel (fun i => p_unit i - d i) (loop + 1)
    else .failed

/-- The codimension-one Newton inversion
`do_transform_real_to_unit_cell_internal_codim1` (lines 1059-1179), with
tolerance `eps = 1.e-12 * cell->diameter()` (line 1120). -/
def do_transform_real_to_unit_cell_internal_codim1 {n : Nat} (n_shapes : Nat)
    (phi : VecQ n → Nat → ℚ) (grad_phi : VecQ n → Nat → Fin n → ℚ)
    (hessian_phi : VecQ n → Nat → Fin n → Fin n → ℚ)
    (points : Nat → VecQ (n + 1)) (p : VecQ (n + 1))
    (initial_p_unit : VecQ n) (cell_diameter : ℚ) : Codim1Result n :=
  do_transform_codim1_aux n_shapes phi grad_phi hessian_phi points p
    (1 / 10 ^ 12 * cell_diameter) (codim1_loop_limit + 1) initial_p_unit 0

/-- The identity mapping in one dimension, realizable as the degree-1 map of
the unit interval cell: used as a concrete instance in witnesses. -/
def newton_id_map : VecQ 1 → VecQ 1 × MatQ 1 := fun q => (q, fun _ _ => 1)

/-- The map `ξ ↦ ξ²` with Jacobian `2ξ`: the degree-2 one-dimensional mapping
of the cell with support points `0, 1/4, 1` (Lagrange interpolation of `ξ²`
on the Gauss-Lobatto nodes `0, 1/2, 1`).  Inverting the real point `0` from
the initial guess `1` halves the iterate each Newton step, so the weighted
residual stays above tolerance for far more than the iteration cap. -/
def newton_square_map : VecQ 1 → VecQ 1 × MatQ 1 :=
  fun q => (fun _ => q 0 * q 0, fun _ _ => 2 * q 0)

/-- A constant-Jacobian map with Jacobian `-1`: every Newton pass fails the
positive-determinant check.  Used in witnesses for the per-point failure
sentinel. -/
def newton_neg_jacobian_map : VecQ 1 → VecQ 1 × MatQ 1 :=
  fun q => (q, fun _ _ => -1)

/-- The degree-1 map of the thin cell with vertices
`(0,0), (1,0), (0,1e-5), (1,1e-5)`: `F(ξ) = (ξ₁, 1e-5·ξ₂)` with constant
Jacobian `diag(1, 1e-5)`. -/
def early_exit_cell_map : VecQ 2 → VecQ 2 × MatQ 2 :=
  fun q =>
    (fun i => if i = 0 then q 0 else 1 / 100000 * q 1,
     fun i j => if i = j then (if i = 0 then 1 else 1 / 100000) else 0)

/-- The real point `(0, -1e-13)`, whose residual from `F(0,0)` passes the
early-exit test of the Newton inversion on `early_exit_cell_map` while its
Jacobian-inverse-weighted norm exceeds the convergence tolerance. -/
def early_exit_target : VecQ 2 := fun i => if i = 0 then 0 else -(1 / 10 ^ 13)

/-- Quadratic coefficient `a = (x1-x3)(y0-y2) - (x0-x2)(y1-y3)` of the
degree-1 2d closed-form inversion (mapping_q_generic.cc line 106).  The
vertices `v 0 .. v 3` and point `p` carry the cell's vertex coordinates and
the real point; the source's `long double` arithmetic is modelled exactly
over ℝ. -/
def q2d_a (v : Fin 4 → ℝ × ℝ) : ℝ :=
  ((v 1).1 - (v 3).1) * ((v 0).2 - (v 2).2) -
    ((v 0).1 - (v 2).1) * ((v 1).2 - (v 3).2)

/-- Quadratic coefficient `b` (lines 107-109). -/
def q2d_b (v : Fin 4 → ℝ × ℝ) (p : ℝ × ℝ) : ℝ :=
  -((v 0).1 - (v 1).1 - (v 2).1 + (v 3).1) * p.2 +
      (p.1 - 2 * (v 1).1 + (v 3).1) * (v 0).2 -
      (p.1 - 2 * (v 0).1 + (v 2).1) * (v 1).2 -
      (p.1 - (v 1).1) * (v 2).2 + (p.1 - (v 0).1) * (v 3).2

/-- Quadratic coefficient `c` (line 110). -/
def q2d_c (v : Fin 4 → ℝ × ℝ) (p : ℝ × ℝ) : ℝ :=
  ((v 0).1 - (v 1).1) * p.2 - (p.1 - (v 1).1) * (v 0).2 +
    (p.1 - (v 0).1) * (v 1).2

/-- The discriminant `b² - 4ac` (line 112). -/
def q2d_discriminant (v : Fin 4 → ℝ × ℝ) (p : ℝ × ℝ) : ℝ :=
  q2d_b v p * q2d_b v p - 4 * q2d_a v * q2d_c v p

/-- First root `eta1` (lines 119-143): the linear formula when `b ≠ 0` and
`|b|` equals the square root of the discriminant exactly, the expansion
`2c/(-b - √disc)` when `|a| < 1e-8 |b|` (parallelogram case), else the plain
quadratic formula `(-b - √disc)/(2a)`. -/
noncomputable def q2d_eta1 (v : Fin 4 → ℝ × ℝ) (p : ℝ × ℝ) : ℝ :=
  if q2d_b v p ≠ 0 ∧ |q2d_b v p| = Real.sqrt (q2d_discriminant v p) then
    -q2d_c v p / q2d_b v p
  else if |q2d_a v| < 1 / 10 ^ 8 * |q2d_b v p| then
    2 * q2d_c v p / (-q2d_b v p - Real.sqrt (q2d_discriminant v p))
  else
    (-q2d_b v p - Real.sqrt (q2d_discriminant v p)) / (2 * q2d_a v)

/-- Second root `eta2` (lines 119-143), branch for branch with `q2d_eta1`. -/
noncomputable def q2d_eta2 (v : Fin 4 → ℝ × ℝ) (p : ℝ × ℝ) : ℝ :=
  if q2d_b v p ≠ 0 ∧ |q2d_b v p| = Real.sqrt (q2d_discriminant v p) then
    -q2d_c v p / q2d_b v p
  else if |q2d_a v| < 1 / 10 ^ 8 * |q2d_b v p| then
    2 * q2d_c v p / (-q2d_b v p + Real.sqrt (q2d_discriminant v p))
  else
    (-q2d_b v p + Real.sqrt (q2d_discriminant v p)) / (2 * q2d_a v)

/-- The chosen root: the one closer to the cell center `0.5`
(lines 144-146). -/
noncomputable def q2d_eta (v : Fin 4 → ℝ × ℝ) (p : ℝ × ℝ) : ℝ :=
  if |q2d_eta1 v p - 1 / 2| < |q2d_eta2 v p - 1 / 2| then q2d_eta1 v p
  else q2d_eta2 v p

/-- `subexpr0 = -eta*x2 + x0*(eta-1)` (line 152). -/
noncomputable def q2d_subexpr0 (v : Fin 4 → ℝ × ℝ) (p : ℝ × ℝ) : ℝ :=
  -q2d_eta v p * (v 2).1 + (v 0).1 * (q2d_eta v p - 1)

/-- The x-based denominator `xi_denominator0 = eta*x3 - x1*(eta-1) + subexpr0`
(lines 153-154). -/
noncomputable def q2d_xi_denominator0 (v : Fin 4 → ℝ × ℝ) (p : ℝ × ℝ) : ℝ :=
  q2d_eta v p * (v 3).1 - (v 1).1 * (q2d_eta v p - 1) + q2d_subexpr0 v p

/-- The largest vertex x-coordinate magnitude `max_x` (lines 155-157). -/
def q2d_max_x (v : Fin 4 → ℝ × ℝ) : ℝ :=
  max (max |(v 0).1| |(v 1).1|) (max |(v 2).1| |(v 3).1|)

/-- `subexpr1 = -eta*y2 + y0*(eta-1)` (line 169). -/
noncomputable def q2d_subexpr1 (v : Fin 4 → ℝ × ℝ) (p : ℝ × ℝ) : ℝ :=
  -q2d_eta v p * (v 2).2 + (v 0).2 * (q2d_eta v p - 1)

/-- The y-based denominator `xi_denominator1` (lines 170-171). -/
noncomputable def q2d_xi_denominator1 (v : Fin 4 → ℝ × ℝ) (p : ℝ × ℝ) : ℝ :=
  q2d_eta v p * (v 3).2 - (v 1).2 * (q2d_eta v p - 1) + q2d_subexpr1 v p

/-- The largest vertex y-coordinate magnitude `max_y` (lines 166-168). -/
def q2d_max_y (v : Fin 4 → ℝ × ℝ) : ℝ :=
  max (max |(v 0).2| |(v 1).2|) (max |(v 2).2| |(v 3).2|)

/-- The degree-1 2d closed-form inversion
`internal::MappingQ1::transform_real_to_unit_cell` (lines 81-190):
fail (`AssertThrow ... ExcTransformationFailed`, modelled `Except.error`)
unless the discriminant is strictly positive; compute the root `eta` closer
to the cell center; recover `xi` from the x-based denominator if its
magnitude exceeds `1e-10 * max_x`, else from the y-based denominator under
the analogous test, else fail.  (The `return` of a NaN pair after the final
`AssertThrow(false, ...)` at lines 185-189 is dead code placating the
compiler and has no counterpart here.) -/
noncomputable def mappingq1_transform_real_to_unit_cell_2d
    (v : Fin 4 → ℝ × ℝ) (p : ℝ × ℝ) : Except Unit (ℝ × ℝ) :=
  if 0 < q2d_discriminant v p then
    if |q2d_xi_denominator0 v p| > 1 / 10 ^ 10 * q2d_max_x v then
      .ok ((p.1 + q2d_subexpr0 v p) / q2d_xi_denominator0 v p, q2d_eta v p)
    else if |q2d_xi_denominator1 v p| > 1 / 10 ^ 10 * q2d_max_y v then
      .ok ((q2d_subexpr1 v p + p.2) / q2d_xi_denominator1 v p, q2d_eta v p)
    else
      .error ()
  else
    .error ()

/-- The unit square cell: vertices `(0,0), (1,0), (0,1), (1,1)` in the
library's vertex order. -/
def unit_square_vertices : Fin 4 → ℝ × ℝ
  | 0 => (0, 0)
  | 1 => (1, 0)
  | 2 => (0, 1)
  | 3 => (1, 1)

/-- Number of real (active) cells in a batch
(matrix_free.templates.h lines 1248-1249):
`n_comp = (irregular_cells[i] > 0) ? irregular_cells[i] : n_lanes`. -/
def n_comp (n_lanes irregular : Nat) : Nat :=
  if irregular > 0 then irregular else n_lanes

/-- The cell-batch (macro-cell) construction loop of
`internal::compute_dof_info` (lines 1241-1267): for each batch, push the
renumbered cell handles of its `n_comp` active lanes
(`cell_level_index_old[renumbering[position_cell + j]]`) and pad the
remaining lanes by duplicating the last valid cell
(`cell_level_index_old[renumbering[position_cell + n_comp - 1]]`), advancing
`position_cell` by `n_comp`.  `old` models `cell_level_index_old` (cell
handles by pre-renumbering position), `renumbering` the renumbering vector,
and the list argument the relevant prefix of `irregular_cells` (one entry per
batch, `0` meaning a full batch). -/
def build_cell_level_index {α : Type} (old : Nat → α) (renumbering : Nat → Nat)
    (n_lanes : Nat) : List Nat → Nat → List α
  | [], _ => []
  | irregular :: rest, position_cell =>
    (List.range n_lanes).map (fun j =>
      if j < n_comp n_lanes irregular then
        old (renumbering (position_cell + j))
      else
        old (renumbering (position_cell + n_comp n_lanes irregular - 1))) ++
      build_cell_level_index old renumbering n_lanes rest
        (position_cell + n_comp n_lanes irregular)

/-- Total number of active lanes over a batch list: the sum the source
asserts equal to `n_active_cells` (lines 1209-1214). -/
def n_comp_sum (n_lanes : Nat) (irregular_cells : List Nat) : Nat :=
  (irregular_cells.map (n_comp n_lanes)).sum

/-- The sequence of renumbering positions read at active (non-padding) lanes,
in batch-then-lane order: positions `position_cell + j` for `j < n_comp`. -/
def active_reads (n_lanes : Nat) : List Nat → Nat → List Nat
  | [], _ => []
  | irregular :: rest, position_cell =>
    (List.range (n_comp n_lanes irregular)).map (fun j => position_cell + j) ++
      active_reads n_lanes rest (position_cell + n_comp n_lanes irregular)

/-- Task scheduling schemes of `TaskInfo`.  Modelled from the spec: the
`TaskInfo` enumeration lives in a header outside the excerpt; the excerpt
compares against `TaskInfo::none` (no multi-threaded task scheme) and the
spec names the partition/color alternatives. -/
inductive TaskScheme : Type where
  | none
  | partition_partition
  | partition_color
  | color
  deriving DecidableEq

/-- The configuration error raised when cell-category re-binning is combined
with threading (the `Assert` message at lines 968-972). -/
inductive ConfigError : Type where
  | categoryWithThreading
  deriving DecidableEq

/-- The category/threading compatibility check opening the partitioning stage
of `internal::compute_dof_info` (lines 961-972):
`Assert(task_info.scheme == none || cell_vectorization_category.empty())`,
followed by the per-cell partitioning work (abstracted as `partition_work`,
standing for the `create_blocks_serial` / `make_thread_graph` stage). The
`Assert` is modelled as an armed check, per the spec: configuration errors
are "reported immediately at setup time, before any per-cell work begins;
fatal to the setup call" (the assertion macro itself is defined outside the
excerpt). -/
def compute_dof_info_category_check {σ : Type} (scheme : TaskScheme)
    (cell_vectorization_category : List Nat) (partition_work : Unit → σ) :
    Except ConfigError σ :=
  if scheme = TaskScheme.none ∨ cell_vectorization_category = [] then
    .ok (partition_work ())
  else
    .error .categoryWithThreading

/-- Flattened constraint-coefficient pool `constraint_pool_data`
(initialize_indices lines 1350-1359): the rows concatenated in pool-row
order. -/
def constraint_pool_data : List (List ℚ) → List ℚ
  | [] => []
  | r :: rs => r ++ constraint_pool_data rs

/-- The running CSR offsets pushed by the loop at lines 1354-1361: after a
row of length `ℓ` is appended at offset `start`, the offset `start + ℓ` is
recorded. -/
def constraint_pool_row_index_aux (start : Nat) : List (List ℚ) → List Nat
  | [] => []
  | r :: rs => (start + r.length) ::
      constraint_pool_row_index_aux (start + r.length) rs

/-- `constraint_pool_row_index` (lines 1352-1361): starts with the single
entry `0` (line 1353) and then records the cumulative data size after each
row. -/
def constraint_pool_row_index (rows : List (List ℚ)) : List Nat :=
  0 :: constraint_pool_row_index_aux 0 rows

/-- The coefficient vector assigned to pool row `i` by the inversion loop
`constraints[it.second] = &it.first` (lines 1341-1349).  `entries` models the
`ConstraintValues` map (defined outside the excerpt; modelled from the spec:
a map keyed by coefficient vectors — "a constraint's coefficient list is
content-addressed (equal coefficient vectors map to the same pool row)" —
whose mapped values are pool row numbers). -/
def constraint_row_at (entries : List (List ℚ × Nat)) (i : Nat) : List ℚ :=
  ((entries.find? (fun e => e.2 == i)).map Prod.fst).getD []

/-- The pool rows in row order, as recovered by the inversion loop. -/
def constraint_rows (entries : List (List ℚ × Nat)) : List (List ℚ) :=
  (List.range entries.length).map (constraint_row_at entries)

/-- Cell similarity tags (`CellSimilarity::Similarity`; the enumeration lives
in a header outside the excerpt — constructors modelled from the spec's
glossary entry "cell similarity" and the source's uses of `none`,
`translation` and `inverted_translation`). -/
inductive CellSimilarity : Type where
  | invalid_next_cell
  | none
  | translation
  | inverted_translation
  deriving DecidableEq

/-- A rank-3 tensor over exact arithmetic. -/
abbrev T3Q (n : Nat) : Type := Fin n → Fin n → Fin n → ℚ

/-- A rank-4 tensor over exact arithmetic. -/
abbrev T4Q (n : Nat) : Type := Fin n → Fin n → Fin n → Fin n → ℚ

/-- A rank-5 tensor over exact arithmetic. -/
abbrev T5Q (n : Nat) : Type := Fin n → Fin n → Fin n → Fin n → Fin n → ℚ

/-- The shape tables of `InternalData` consumed by the `fill_fe_values`
update chain (square case `dim == spacedim == n`): `derivative(point, k)`,
`second_derivative(point, k)`, `third_derivative(point, k)`,
`fourth_derivative(point, k)` and the cell's `mapping_support_points`. -/
structure ShapeData (n : Nat) : Type where
  n_shape_functions : Nat
  support : Nat → VecQ n
  derivative : Nat → Nat → VecQ n
  second_derivative : Nat → Nat → MatQ n
  third_derivative : Nat → Nat → T3Q n
  fourth_derivative : Nat → Nat → T4Q n

/-- The update flags of `data.update_each` that gate the individual update
functions called from `fill_fe_values`. -/
structure MappingUpdateFlags : Type where
  contravariant : Bool
  covariant : Bool
  volume_elements : Bool
  jacobian_grads : Bool
  jacobian_pushed_forward_grads : Bool
  jacobian_2nd_derivatives : Bool
  jacobian_pushed_forward_2nd_derivatives : Bool
  jacobian_3rd_derivatives : Bool
  jacobian_pushed_forward_3rd_derivatives : Bool

/-- The mutable caches and outputs filled by the `fill_fe_values` update
chain, per quadrature point: the `contravariant`, `covariant` and
`volume_elements` caches of `InternalData` and the higher-derivative vectors
of the output data object. -/
structure FillState (n : Nat) : Type where
  contravariant : Nat → MatQ n
  covariant : Nat → MatQ n
  volume_elements : Nat → ℚ
  jacobian_grads : Nat → T3Q n
  jacobian_pushed_forward_grads : Nat → T3Q n
  jacobian_2nd_derivatives : Nat → T4Q n
  jacobian_pushed_forward_2nd_derivatives : Nat → T4Q n
  jacobian_3rd_derivatives : Nat → T5Q n
  jacobian_pushed_forward_3rd_derivatives : Nat → T5Q n

/-- The contravariant (Jacobian) recomputation of `maybe_update_Jacobians`
(mapping_q_generic.cc lines 1436-1461):
`contravariant[point][i][j] = Σ_k derivative(point,k)[j] * support[k][i]`. -/
def contravariant_of {n : Nat} (d : ShapeData n) : Nat → MatQ n :=
  fun point i j => ∑ k ∈ Finset.range d.n_shape_functions,
    d.derivative point k j * d.support k i

/-- Modelled from the spec: `DerivativeForm::covariant_form()` (line 1471;
the tensor header defining it is outside the excerpt) — the covariant
transform is the inverse-transpose of the Jacobian ("the inverse-transpose
and direct Jacobian transforms", spec glossary). -/
def covariant_form {n : Nat} (A : MatQ n) : MatQ n :=
  fun i j => matInvQ n A j i

/-- The Jacobian-gradient recomputation of `maybe_update_jacobian_grads`
(lines 1506-1528):
`jacobian_grads[point][i][j][l] = Σ_k second(point,k)[j][l] * support[k][i]`. -/
def jacobian_grads_of {n : Nat} (d : ShapeData n) : Nat → T3Q n :=
  fun point i j l => ∑ k ∈ Finset.range d.n_shape_functions,
    d.second_derivative point k j l * d.support k i

/-- The pushed-forward Jacobian gradient of
`maybe_update_jacobian_pushed_forward_grads` (lines 1556-1601): the plain
gradient contracted with the covariant transform over the `j` then the `l`
index. -/
def jacobian_pushed_forward_grads_of {n : Nat} (d : ShapeData n)
    (cov : Nat → MatQ n) : Nat → T3Q n :=
  fun point i j l =>
    ∑ lr, (∑ jr, jacobian_grads_of d point i jr lr * cov point j jr) *
      cov point l lr

/-- The Jacobian second-derivative recomputation of
`maybe_update_jacobian_2nd_derivatives` (lines 1628-1655):
`Σ_k third(point,k)[j][l][m] * support[k][i]`. -/
def jacobian_2nd_derivatives_of {n : Nat} (d : ShapeData n) : Nat → T4Q n :=
  fun point i j l m => ∑ k ∈ Finset.range d.n_shape_functions,
    d.third_derivative point k j l m * d.support k i

/-- The pushed-forward second derivative of
`maybe_update_jacobian_pushed_forward_2nd_derivatives` (lines 1686-1759):
contraction with the covariant transform over `j`, `l`, then `m`. -/
def jacobian_pushed_forward_2nd_derivatives_of {n : Nat} (d : ShapeData n)
    (cov : Nat → MatQ n) : Nat → T4Q n :=
  fun point i j l m =>
    ∑ mr, (∑ lr, (∑ jr, jacobian_2nd_derivatives_of d point i jr lr mr *
      cov point j jr) * cov point l lr) * cov point m mr

/-- The Jacobian third-derivative recomputation of
`maybe_update_jacobian_3rd_derivatives` (lines 1786-1816):
`Σ_k fourth(point,k)[j][l][m][o] * support[k][i]`. -/
def jacobian_3rd_derivatives_of {n : Nat} (d : ShapeData n) : Nat → T5Q n :=
  fun point i j l m o => ∑ k ∈ Finset.range d.n_shape_functions,
    d.fourth_derivative point k j l m o * d.support k i

/-- The pushed-forward third derivative of
`maybe_update_jacobian_pushed_forward_3rd_derivatives` (lines 1847-1939):
contraction with the covariant transform over `j`, `l`, `m`, then the last
index. -/
def jacobian_pushed_forward_3rd_derivatives_of {n : Nat} (d : ShapeData n)
    (cov : Nat → MatQ n) : Nat → T5Q n :=
  fun point i j l m o =>
    ∑ orr, (∑ mr, (∑ lr, (∑ jr,
      jacobian_3rd_derivatives_of d point i jr lr mr orr * cov point j jr) *
        cov point l lr) * cov point m mr) * cov point o orr

/-- `maybe_update_Jacobians` (lines 1409-1483): recompute the contravariant,
covariant and volume-element caches, each only when its update flag is set
and the cell similarity is not `translation` (an unset flag or a translation
similarity leaves the cache untouched). -/
def maybe_update_Jacobians {n : Nat} (cell_similarity : CellSimilarity)
    (flags : MappingUpdateFlags) (d : ShapeData n) (s : FillState n) :
    FillState n :=
  let s1 :=
    if flags.contravariant = true ∧
        cell_similarity ≠ CellSimilarity.translation then
      { s with contravariant := contravariant_of d }
    else s
  let s2 :=
    if flags.covariant = true ∧
        cell_similarity ≠ CellSimilarity.translation then
      { s1 with covariant := fun point => covariant_form (s1.contravariant point) }
    else s1
  if flags.volume_elements = true ∧
      cell_similarity ≠ CellSimilarity.translation then
    { s2 with volume_elements := fun point => detQ n (s2.contravariant point) }
  else s2

/-- `maybe_update_jacobian_grads` (lines 1491-1530), with the same guard
structure. -/
def maybe_update_jacobian_grads {n : Nat} (cell_similarity : CellSimilarity)
    (flags : MappingUpdateFlags) (d : ShapeData n) (s : FillState n) :
    FillState n :=
  if flags.jacobian_grads = true ∧
      cell_similarity ≠ CellSimilarity.translation then
    { s with jacobian_grads := jacobian_grads_of d }
  else s

/-- `maybe_update_jacobian_pushed_forward_grads` (lines 1538-1604). -/
def maybe_update_jacobian_pushed_forward_grads {n : Nat}
    (cell_similarity : CellSimilarity) (flags : MappingUpdateFlags)
    (d : ShapeData n) (s : FillState n) : FillState n :=
  if flags.jacobian_pushed_forward_grads = true ∧
      cell_similarity ≠ CellSimilarity.translation then
    { s with jacobian_pushed_forward_grads :=
        jacobian_pushed_forward_grads_of d s.covariant }
  else s

/-- `maybe_update_jacobian_2nd_derivatives` (lines 1612-1658). -/
def maybe_update_jacobian_2nd_derivatives {n : Nat}
    (cell_similarity : CellSimilarity) (flags : MappingUpdateFlags)
    (d : ShapeData n) (s : FillState n) : FillState n :=
  if flags.jacobian_2nd_derivatives = true ∧
      cell_similarity ≠ CellSimilarity.translation then
    { s with jacobian_2nd_derivatives := jacobian_2nd_derivatives_of d }
  else s

/-- `maybe_update_jacobian_pushed_forward_2nd_derivatives`
(lines 1667-1762). -/
def maybe_update_jacobian_pushed_forward_2nd_derivatives {n : Nat}
    (cell_similarity : CellSimilarity) (flags : MappingUpdateFlags)
    (d : ShapeData n) (s : FillState n) : FillState n :=
  if flags.jacobian_pushed_forward_2nd_derivatives = true ∧
      cell_similarity ≠ CellSimilarity.translation then
    { s with jacobian_pushed_forward_2nd_derivatives :=
        jacobian_pushed_forward_2nd_derivatives_of d s.covariant }
  else s

/-- `maybe_update_jacobian_3rd_derivatives` (lines 1770-1819). -/
def maybe_update_jacobian_3rd_derivatives {n : Nat}
    (cell_similarity : CellSimilarity) (flags : MappingUpdateFlags)
    (d : ShapeData n) (s : FillState n) : FillState n :=
  if flags.jacobian_3rd_derivatives = true ∧
      cell_similarity ≠ CellSimilarity.translation then
    { s with jacobian_3rd_derivatives := jacobian_3rd_derivatives_of d }
  else s

/-- `maybe_update_jacobian_pushed_forward_3rd_derivatives`
(lines 1828-1942). -/
def maybe_update_jacobian_pushed_forward_3rd_derivatives {n : Nat}
    (cell_similarity : CellSimilarity) (flags : MappingUpdateFlags)
    (d : ShapeData n) (s : FillState n) : FillState n :=
  if flags.jacobian_pushed_forward_3rd_derivatives = true ∧
      cell_similarity ≠ CellSimilarity.translation then
    { s with jacobian_pushed_forward_3rd_derivatives :=
        jacobian_pushed_forward_3rd_derivatives_of d s.covariant }
  else s

/-- The cell-similarity downgrade and guarded update chain of
`MappingQGeneric::fill_fe_values` (lines 2491-2562, returning the similarity
at line 2678): `computed_cell_similarity` is the incoming tag when the
polynomial degree is 1 and `none` otherwise (lines 2495-2496), the update
functions run with the downgraded tag, and the downgraded tag is returned to
the caller.  The model follows the point-by-point branch of the source
(`tensor_product_quadrature == false`; `InternalData::initialize`,
lines 275-276, forces that flag off whenever the degree is below 2, so the
degree-1 cases of the claim always take this branch). -/
def fill_fe_values_core {n : Nat} (polynomial_degree : Nat)
    (cell_similarity : CellSimilarity) (flags : MappingUpdateFlags)
    (d : ShapeData n) (s : FillState n) : CellSimilarity × FillState n :=
  let computed_cell_similarity :=
    if polynomial_degree = 1 then cell_similarity else CellSimilarity.none
  let s1 := maybe_update_Jacobians computed_cell_similarity flags d s
  let s2 := maybe_update_jacobian_grads computed_cell_similarity flags d s1
  let s3 := maybe_update_jacobian_pushed_forward_grads
    computed_cell_similarity flags d s2
  let s4 := maybe_update_jacobian_2nd_derivatives
    computed_cell_similarity flags d s3
  let s5 := maybe_update_jacobian_pushed_forward_2nd_derivatives
    computed_cell_similarity flags d s4
  let s6 := maybe_update_jacobian_3rd_derivatives
    computed_cell_similarity flags d s5
  let s7 := maybe_update_jacobian_pushed_forward_3rd_derivatives
    computed_cell_similarity flags d s6
  (computed_cell_similarity, s7)

/-- A concrete trivial shape-data instance used by witnesses. -/
def trivial_shape_data : ShapeData 1 where
  n_shape_functions := 0
  support := fun _ _ => 0
  derivative := fun _ _ _ => 0
  second_derivative := fun _ _ _ _ => 0
  third_derivative := fun _ _ _ _ _ => 0
  fourth_derivative := fun _ _ _ _ _ _ => 0

/-- A concrete fill state used by witnesses. -/
def trivial_fill_state : FillState 1 where
  contravariant := fun _ _ _ => 1
  covariant := fun _ _ _ => 1
  volume_elements := fun _ => 1
  jacobian_grads := fun _ _ _ _ => 1
  jacobian_pushed_forward_grads := fun _ _ _ _ => 1
  jacobian_2nd_derivatives := fun _ _ _ _ _ => 1
  jacobian_pushed_forward_2nd_derivatives := fun _ _ _ _ _ => 1
  jacobian_3rd_derivatives := fun _ _ _ _ _ _ => 1
  jacobian_pushed_forward_3rd_derivatives := fun _ _ _ _ _ _ => 1

/-- All update flags requested: used by witnesses. -/
def all_update_flags : MappingUpdateFlags where
  contravariant := true
  covariant := true
  volume_elements := true
  jacobian_grads := true
  jacobian_pushed_forward_grads := true
  jacobian_2nd_derivatives := true
  jacobian_pushed_forward_2nd_derivatives := true
  jacobian_3rd_derivatives := true
  jacobian_pushed_forward_3rd_derivatives := true

theorem detQ_eq_det : ∀ (n : Nat) (A : MatQ n), detQ n A = (Matrix.of A).det
  | 0, A => by simp [detQ, Matrix.det_fin_zero]
  | n + 1, A => by
    rw [detQ, Matrix.det_succ_row_zero]
    refine Finset.sum_congr rfl fun j _ => ?_
    rw [detQ_eq_det n]
    rfl

theorem line_search_aux_success_spec {n : Nat} (F : VecQ n → VecQ n × MatQ n)
    (p p_unit f delta : VecQ n) :
    ∀ (fuel : Nat) (step : ℚ) (pu' : VecQ n) (pr' : VecQ n × MatQ n)
      (f' : VecQ n),
      line_search_aux F p p_unit f delta step fuel = .success pu' pr' f' →
      pr' = F pu' ∧ f' = fun i => pr'.1 i - p i
  | 0, step, pu', pr', f', h => by simp [line_search_aux] at h
  | fuel + 1, step, pu', pr', f', h => by
    simp only [line_search_aux] at h
    split at h
    · cases h
      exact ⟨rfl, rfl⟩
    · split at h
      · exact line_search_aux_success_spec F p p_unit f delta fuel (step / 2)
          pu' pr' f' h
      · cases h

theorem line_search_aux_ne_outOfFuel {n : Nat} (F : VecQ n → VecQ n × MatQ n)
    (p p_unit f delta : VecQ n) :
    ∀ (fuel : Nat) (step : ℚ), step ≤ 2 ^ fuel * (1 / 20) →
      line_search_aux F p p_unit f delta step (fuel + 1) ≠ .outOfFuel
  | 0, step, hstep => by
    simp only [line_search_aux]
    split
    · simp
    · split
      · rename_i hgt
        exact absurd (le_trans hstep (by norm_num)) (not_le.mpr hgt)
      · simp
  | fuel + 1, step, hstep => by
    simp only [line_search_aux]
    split
    · simp
    · split
      · exact line_search_aux_ne_outOfFuel F p p_unit f delta fuel (step / 2)
          (by rw [pow_succ] at hstep; linarith)
      · simp

theorem line_search_ne_outOfFuel {n : Nat} (F : VecQ n → VecQ n × MatQ n)
    (p p_unit f delta : VecQ n) :
    line_search F p p_unit f delta ≠ .outOfFuel :=
  line_search_aux_ne_outOfFuel F p p_unit f delta 5 1 (by norm_num)

theorem do_transform_aux_ne_outOfFuel {n : Nat}
    (F : VecQ n → VecQ n × MatQ n) (p : VecQ n) :
    ∀ (fuel : Nat) (p_unit : VecQ n) (p_real : VecQ n × MatQ n) (f : VecQ n)
      (it : Nat), newton_iteration_limit + 1 ≤ fuel + it →
      it ≤ newton_iteration_limit →
      do_transform_aux F p fuel p_unit p_real f it ≠ .outOfFuel
  | 0, p_unit, p_real, f, it, hfuel, hit => by
    exact absurd hfuel (by omega)
  | fuel + 1, p_unit, p_real, f, it, hfuel, hit => by
    simp only [do_transform_aux]
    split
    · simp
    · split
      · rename_i hls
        exact absurd hls (line_search_ne_outOfFuel F p p_unit f _)
      · simp
      · split
        · simp
        · split
          · simp
          · rename_i hcap _
            exact do_transform_aux_ne_outOfFuel F p fuel _ _ _ (it + 1)
              (by omega) (by omega)

theorem do_transform_aux_fuel_congr {n : Nat}
    (F : VecQ n → VecQ n × MatQ n) (p : VecQ n) :
    ∀ (fuel fuel' : Nat) (p_unit : VecQ n) (p_real : VecQ n × MatQ n)
      (f : VecQ n) (it : Nat),
      newton_iteration_limit + 1 ≤ fuel + it →
      newton_iteration_limit + 1 ≤ fuel' + it →
      it ≤ newton_iteration_limit →
      do_transform_aux F p fuel p_unit p_real f it =
        do_transform_aux F p fuel' p_unit p_real f it := by
  intro fuel
  induction fuel with
  | zero =>
    intro fuel' p_unit p_real f it hfuel hfuel' hit
    exact absurd hfuel (by omega)
  | succ fuel ih =>
    intro fuel' p_unit p_real f it hfuel hfuel' hit
    cases fuel' with
    | zero => exact absurd hfuel' (by omega)
    | succ fuel' => ?_
    simp only [do_transform_aux]
    split
    · rfl
    · split
      · rfl
      · rfl
      · split
        · rfl
        · split
          · rfl
          · rename_i hcap _
            exact ih fuel' _ _ _ (it + 1) (by omega) (by omega) (by omega)

theorem do_transform_aux_ok_spec {n : Nat}
    (F : VecQ n → VecQ n × MatQ n) (p : VecQ n) :
    ∀ (fuel : Nat) (p_unit : VecQ n) (p_real : VecQ n × MatQ n) (f : VecQ n)
      (it : Nat) (q : VecQ n),
      p_real = F p_unit → f = (fun i => p_real.1 i - p i) →
      do_transform_aux F p fuel p_unit p_real f it = .ok q →
      ∃ ξ : VecQ n, ¬ detQ n (F ξ).2 ≤ 0 ∧
        normSq (mulVecQ (matInvQ n (F ξ).2) (fun i => (F q).1 i - p i)) ≤
          newton_eps * newton_eps
  | 0, p_unit, p_real, f, it, q, hreal, hf, h => by
    simp [do_transform_aux] at h
  | fuel + 1, p_unit, p_real, f, it, q, hreal, hf, h => by
    simp only [do_transform_aux] at h
    split at h
    · cases h
    · rename_i hdet
      split at h
      · cases h
      · cases h
      · rename_i pu' pr' f' hls
        have hspec := line_search_aux_success_spec F p p_unit f _ 6 1
          pu' pr' f' hls
        split at h
        · cases h
        · split at h
          · rename_i hres
            cases h
            refine ⟨p_unit, ?_, ?_⟩
            · rw [← hreal]; exact hdet
            · rw [← hreal]
              have : f' = fun i => (F q).1 i - p i := by
                rw [hspec.2, hspec.1]
              rw [← this]
              exact hres
          · exact do_transform_aux_ok_spec F p fuel pu' pr' f' (it + 1) q
              hspec.1 (by rw [hspec.2]) h

theorem codim1_aux_ne_outOfFuel {n : Nat} (n_shapes : Nat)
    (phi : VecQ n → Nat → ℚ) (grad_phi : VecQ n → Nat → Fin n → ℚ)
    (hessian_phi : VecQ n → Nat → Fin n → Fin n → ℚ)
    (points : Nat → VecQ (n + 1)) (p : VecQ (n + 1)) (eps : ℚ) :
    ∀ (fuel : Nat) (p_unit : VecQ n) (loop : Nat),
      codim1_loop_limit + 1 ≤ fuel + loop → loop ≤ codim1_loop_limit →
      do_transform_codim1_aux n_shapes phi grad_phi hessian_phi points p eps
        fuel p_unit loop ≠ .outOfFuel
  | 0, p_unit, loop, hfuel, hloop => absurd hfuel (by omega)
  | fuel + 1, p_unit, loop, hfuel, hloop => by
    simp only [do_transform_codim1_aux]
    split
    · split <;> simp
    · split
      · rename_i hloop'
        exact codim1_aux_ne_outOfFuel n_shapes phi grad_phi hessian_phi
          points p eps fuel _ (loop + 1) (by omega) (by omega)
      · simp

theorem codim1_aux_ok_residual {n : Nat} (n_shapes : Nat)
    (phi : VecQ n → Nat → ℚ) (grad_phi : VecQ n → Nat → Fin n → ℚ)
    (hessian_phi : VecQ n → Nat → Fin n → Fin n → ℚ)
    (points : Nat → VecQ (n + 1)) (p : VecQ (n + 1)) (eps : ℚ) :
    ∀ (fuel : Nat) (p_unit : VecQ n) (loop : Nat) (q : VecQ n),
      do_transform_codim1_aux n_shapes phi grad_phi hessian_phi points p eps
        fuel p_unit loop = .ok q →
      normSq (codim1_f n_shapes phi grad_phi points p q) ≤ eps * eps
  | 0, p_unit, loop, q, h => by simp [do_transform_codim1_aux] at h
  | fuel + 1, p_unit, loop, q, h => by
    simp only [do_transform_codim1_aux] at h
    split at h
    · rename_i hres
      split at h
      · cases h; exact hres
      · cases h
    · split at h
      · exact codim1_aux_ok_residual n_shapes phi grad_phi hessian_phi
          points p eps fuel _ (loop + 1) q h
      · cases h

/-- C2.  Failure semantics of the general Newton inversion, amended: for every
forward map, target point and initial guess, (i) the inversion reaches a
terminal outcome (the fuel artefact is unreachable), so by the shape of
`NewtonResult` it returns the distinguished failure value exactly at the three
program points of the claim (non-positive Jacobian determinant, exhausted
line search, iteration count past the cap); (ii) on a non-failure return the
returned point either satisfies the early-exit test
`‖f‖² < 1e-24·‖J‖²` at the initial guess (this case is the amendment: such a
point need not meet the weighted tolerance, see the counterexample) or has
Jacobian-inverse-weighted residual norm within the tolerance, the Jacobian
being the one of the final Newton iterate; (iii) the public
`transform_real_to_unit_cell` converts exactly the failure value into a thrown
`ExcTransformationFailed`. -/
theorem newton_inversion_failure_semantics {n : Nat}
    (F : VecQ n → VecQ n × MatQ n) (p initial_p_unit : VecQ n) :
    (do_transform_real_to_unit_cell_internal F p initial_p_unit ≠
      .outOfFuel) ∧
    (∀ q : VecQ n,
      do_transform_real_to_unit_cell_internal F p initial_p_unit = .ok q →
      (q = initial_p_unit ∧
        normSq (fun i => (F initial_p_unit).1 i - p i) <
          1 / 10 ^ 24 * frobSq (F initial_p_unit).2) ∨
      (∃ ξ : VecQ n, ¬ detQ n (F ξ).2 ≤ 0 ∧
        normSq (mulVecQ (matInvQ n (F ξ).2) (fun i => (F q).1 i - p i)) ≤
          newton_eps * newton_eps)) ∧
    (transform_real_to_unit_cell_general F p initial_p_unit = .error () ↔
      ∃ r : NewtonFailure,
        do_transform_real_to_unit_cell_internal F p initial_p_unit =
          .fail r) := by
  refine ⟨?_, ?_, ?_⟩
  · simp only [do_transform_real_to_unit_cell_internal]
    split
    · simp
    · exact do_transform_aux_ne_outOfFuel F p (newton_iteration_limit + 1)
        initial_p_unit _ _ 0 (by omega) (by omega)
  · intro q h
    simp only [do_transform_real_to_unit_cell_internal] at h
    split at h
    · rename_i hearly
      cases h
      exact Or.inl ⟨rfl, hearly⟩
    · exact Or.inr (do_transform_aux_ok_spec F p (newton_iteration_limit + 1)
        initial_p_unit _ _ 0 q rfl rfl h)
  · constructor
    · intro herr
      simp only [transform_real_to_unit_cell_general] at herr
      split at herr
      · cases herr
      · rename_i r hr
        exact ⟨r, hr⟩
      · rename_i hoof
        have hne := do_transform_aux_ne_outOfFuel F p
          (newton_iteration_limit + 1) initial_p_unit (F initial_p_unit)
          (fun i => (F initial_p_unit).1 i - p i) 0 (by omega) (by omega)
        simp only [do_transform_real_to_unit_cell_internal] at hoof
        split at hoof
        · cases hoof
        · exact absurd hoof hne
    · intro ⟨r, hr⟩
      simp [transform_real_to_unit_cell_general, hr]

/-- C2 witness: the identity map on the unit interval inverted at the point
`1/2` from the initial guess `1/2` returns `1/2` via the early-exit test. -/
theorem newton_inversion_failure_semantics_witness :
    ((fun _ => (1 : ℚ) / 2 : VecQ 1) = (fun _ => (1 : ℚ) / 2 : VecQ 1) ∧
      normSq (fun i => (newton_id_map (fun _ => (1 : ℚ) / 2)).1 i -
          (fun _ => (1 : ℚ) / 2 : VecQ 1) i) <
        1 / 10 ^ 24 * frobSq (newton_id_map (fun _ => (1 : ℚ) / 2)).2) ∨
    (∃ ξ : VecQ 1, ¬ detQ 1 (newton_id_map ξ).2 ≤ 0 ∧
      normSq (mulVecQ (matInvQ 1 (newton_id_map ξ).2)
          (fun i => (newton_id_map (fun _ => (1 : ℚ) / 2)).1 i -
            (fun _ => (1 : ℚ) / 2 : VecQ 1) i)) ≤
        newton_eps * newton_eps) :=
  (newton_inversion_failure_semantics newton_id_map
      (fun _ => (1 : ℚ) / 2) (fun _ => (1 : ℚ) / 2)).2.1
    (fun _ => (1 : ℚ) / 2) (of_decide_eq_true (by with_unfolding_all rfl))

/-- C2 counterexample: on the thin bilinear cell `(0,0),(1,0),(0,1e-5),(1,1e-5)`
with target `(0,-1e-13)` and initial guess the origin, the inversion succeeds
through the early-exit test, yet the Jacobian-inverse-weighted residual norm
of the returned point exceeds the tolerance (`1e-8 > 1e-11`), contradicting
the claim that every non-failure return meets the weighted tolerance. -/
theorem newton_inversion_early_exit_counterexample :
    do_transform_real_to_unit_cell_internal early_exit_cell_map
        early_exit_target (fun _ => 0) = .ok (fun _ => 0) ∧
    ¬ normSq (mulVecQ (matInvQ 2 (early_exit_cell_map (fun _ => 0)).2)
        (fun i => (early_exit_cell_map (fun _ => (0 : ℚ))).1 i -
          early_exit_target i)) ≤ newton_eps * newton_eps :=
  of_decide_eq_true (by with_unfolding_all rfl)

/-- C8, amended.  Termination of the Newton-type inversions: (i) the general
`dim == spacedim` Newton loop is insensitive to any fuel that covers the
iteration cap, i.e. every run reaches a terminal outcome within
`newton_iteration_limit + 1 = 21` loop passes (at most 20 passes can complete
a counted iteration; the 21st pass is the one that returns the failure value
when the counter exceeds the cap — the amendment: the worst case takes 21
passes, not 20, see the counterexample); (ii) the inversion entry point never
exhausts its fuel; (iii) the codimension-one damped loop never exhausts its
fuel (at most 10 loop bodies run); (iv) when the codimension-one loop
converges it returns a point whose residual is within the tolerance
`1e-12 * cell->diameter()` (squared comparison). -/
theorem newton_inversions_terminate :
    (∀ (n : Nat) (F : VecQ n → VecQ n × MatQ n)
       (p p_unit f : VecQ n) (p_real : VecQ n × MatQ n) (it fuel fuel' : Nat),
       newton_iteration_limit + 1 ≤ fuel + it →
       newton_iteration_limit + 1 ≤ fuel' + it →
       it ≤ newton_iteration_limit →
       do_transform_aux F p fuel p_unit p_real f it =
         do_transform_aux F p fuel' p_unit p_real f it) ∧
    (∀ (n : Nat) (F : VecQ n → VecQ n × MatQ n) (p initial_p_unit : VecQ n),
       do_transform_real_to_unit_cell_internal F p initial_p_unit ≠
         .outOfFuel) ∧
    (∀ (n n_shapes : Nat) (phi : VecQ n → Nat → ℚ)
       (grad_phi : VecQ n → Nat → Fin n → ℚ)
       (hessian_phi : VecQ n → Nat → Fin n → Fin n → ℚ)
       (points : Nat → VecQ (n + 1)) (p : VecQ (n + 1))
       (initial_p_unit : VecQ n) (cell_diameter : ℚ),
       do_transform_real_to_unit_cell_internal_codim1 n_shapes phi grad_phi
         hessian_phi points p initial_p_unit cell_diameter ≠ .outOfFuel) ∧
    (∀ (n n_shapes : Nat) (phi : VecQ n → Nat → ℚ)
       (grad_phi : VecQ n → Nat → Fin n → ℚ)
       (hessian_phi : VecQ n → Nat → Fin n → Fin n → ℚ)
       (points : Nat → VecQ (n + 1)) (p : VecQ (n + 1))
       (initial_p_unit : VecQ n) (cell_diameter : ℚ) (q : VecQ n),
       do_transform_real_to_unit_cell_internal_codim1 n_shapes phi grad_phi
         hessian_phi points p initial_p_unit cell_diameter = .ok q →
       normSq (codim1_f n_shapes phi grad_phi points p q) ≤
         (1 / 10 ^ 12 * cell_diameter) * (1 / 10 ^ 12 * cell_diameter)) := by
  refine ⟨?_, ?_, ?_, ?_⟩
  · intro n F p p_unit f p_real it fuel fuel' hfuel hfuel' hit
    exact do_transform_aux_fuel_congr F p fuel fuel' p_unit p_real f it
      hfuel hfuel' hit
  · intro n F p initial_p_unit
    simp only [do_transform_real_to_unit_cell_internal]
    split
    · simp
    · exact do_transform_aux_ne_outOfFuel F p (newton_iteration_limit + 1)
        initial_p_unit _ _ 0 (by omega) (by omega)
  · intro n n_shapes phi grad_phi hessian_phi points p initial_p_unit diam
    exact codim1_aux_ne_outOfFuel n_shapes phi grad_phi hessian_phi points p
      _ (codim1_loop_limit + 1) initial_p_unit 0 (by omega) (by omega)
  · intro n n_shapes phi grad_phi hessian_phi points p initial_p_unit diam q h
    exact codim1_aux_ok_residual n_shapes phi grad_phi hessian_phi points p
      _ (codim1_loop_limit + 1) initial_p_unit 0 q h

/-- C8 witness: concrete instantiations of all four parts — fuel 21 and 22
agree for the identity map from iteration counter 0; the entry points of the
square-map inversion and of a trivial (zero-shape-function) codimension-one
inversion do not exhaust fuel; and the converged trivial codimension-one run
meets its residual bound. -/
theorem newton_inversions_terminate_witness :
    (do_transform_aux newton_id_map (fun _ => 0) 21 (fun _ => 1)
        (newton_id_map (fun _ => 1))
        (fun i => (newton_id_map (fun _ => (1 : ℚ))).1 i - 0) 0 =
      do_transform_aux newton_id_map (fun _ => 0) 22 (fun _ => 1)
        (newton_id_map (fun _ => 1))
        (fun i => (newton_id_map (fun _ => (1 : ℚ))).1 i - 0) 0) ∧
    (do_transform_real_to_unit_cell_internal newton_square_map (fun _ => 0)
        (fun _ => 1) ≠ .outOfFuel) ∧
    (do_transform_real_to_unit_cell_internal_codim1 (n := 1) 0
        (fun _ _ => 0) (fun _ _ _ => 0) (fun _ _ _ _ => 0) (fun _ _ => 0)
        (fun _ => 0) (fun _ => 0) 1 ≠ .outOfFuel) ∧
    normSq (codim1_f (n := 1) 0 (fun _ _ => 0) (fun _ _ _ => 0)
        (fun _ _ => 0) (fun _ => 0) (fun _ => 0)) ≤
      (1 / 10 ^ 12 * 1) * (1 / 10 ^ 12 * 1) :=
  ⟨newton_inversions_terminate.1 1 newton_id_map (fun _ => 0) (fun _ => 1)
      (fun i => (newton_id_map (fun _ => (1 : ℚ))).1 i - 0)
      (newton_id_map (fun _ => 1)) 0 21 22 (by decide) (by decide)
      (by decide),
   newton_inversions_terminate.2.1 1 newton_square_map (fun _ => 0)
      (fun _ => 1),
   newton_inversions_terminate.2.2.1 1 0 (fun _ _ => 0) (fun _ _ _ => 0)
      (fun _ _ _ _ => 0) (fun _ _ => 0) (fun _ => 0) (fun _ => 0) 1,
   newton_inversions_terminate.2.2.2 1 0 (fun _ _ => 0) (fun _ _ _ => 0)
      (fun _ _ _ _ => 0) (fun _ _ => 0) (fun _ => 0) (fun _ => 0) 1
      (fun _ => 0) (of_decide_eq_true (by with_unfolding_all rfl))⟩

/-- C8 counterexample: inverting the real point `0` of the degree-2 map
`ξ ↦ ξ²` from the initial guess `1` halves the iterate each pass, so after 20
full passes (fuel `newton_iteration_limit = 20` exhausted) the run has not
reached a terminal outcome — contradicting "at most 20 iterations before
either converging or returning the failure value".  The run terminates on the
21st pass, returning the iteration-cap failure. -/
theorem newton_iteration_cap_counterexample :
    do_transform_aux newton_square_map (fun _ => 0) newton_iteration_limit
        (fun _ => 1) (newton_square_map (fun _ => 1))
        (fun i => (newton_square_map (fun _ => (1 : ℚ))).1 i - 0) 0 =
      .outOfFuel ∧
    do_transform_real_to_unit_cell_internal newton_square_map (fun _ => 0)
        (fun _ => 1) = .fail .iterationLimitExceeded :=
  of_decide_eq_true (by with_unfolding_all rfl)

/-- C10.  `transform_points_real_to_unit_cell` processes every point of its
input (the output has one entry per input point — no exception escapes a
per-point inversion failure), and the entry for index `i` is determined by
input point `i` alone: the sentinel (`none`, modelling the first coordinate
set to positive infinity) exactly when that point's Newton inversion fails,
and the converged unit-cell coordinates when it succeeds — unaffected by
failures at other points. -/
theorem transform_points_per_point_semantics {n : Nat}
    (F : VecQ n → VecQ n × MatQ n) (initial_guess : VecQ n → VecQ n)
    (real_points : List (VecQ n)) :
    (transform_points_real_to_unit_cell F initial_guess real_points).length =
      real_points.length ∧
    ∀ (i : Nat) (p : VecQ n), real_points.get? i = some p →
      (transform_points_real_to_unit_cell F initial_guess real_points).get?
          i =
        some (match do_transform_real_to_unit_cell_internal F p
            (project_to_unit_cell (initial_guess p)) with
          | .ok q => some q
          | .fail _ => none
          | .outOfFuel => none) := by
  constructor
  · simp [transform_points_real_to_unit_cell]
  · intro i p h
    simp only [transform_points_real_to_unit_cell, List.get?_map, h,
      Option.map_some']

/-- C10 witness: on the constant-negative-Jacobian map, the point list
`[1/2, 5]` yields a successful entry at index 0 (early exit) and the failure
sentinel at index 1 (non-positive determinant), with both entries present. -/
theorem transform_points_per_point_semantics_witness :
    (transform_points_real_to_unit_cell newton_neg_jacobian_map (fun q => q)
        [fun _ => (1 : ℚ) / 2, fun _ => (5 : ℚ)]).get? 1 = some none := by
  have h := (transform_points_per_point_semantics newton_neg_jacobian_map
      (fun q => q) [fun _ => (1 : ℚ) / 2, fun _ => (5 : ℚ)]).2 1
      (fun _ => (5 : ℚ)) rfl
  rw [h]
  exact congrArg some (of_decide_eq_true (by with_unfolding_all rfl))

/-- C3.  The degree-1 2d closed-form inversion fails (signalling
`ExcTransformationFailed`, never a NaN value — every outcome of the embedded
function is an explicit `ok`/`error`) precisely when the discriminant is not
strictly positive or both denominators fall at or below their thresholds
(`1e-10` times the largest vertex coordinate magnitude of the respective
axis); on success the returned `eta` is one of the two quadratic roots, the
one no farther from the cell center `0.5` than the other, and `xi` is
obtained by dividing by the x-based denominator when its magnitude exceeds
its threshold and by the y-based denominator otherwise. -/
theorem mappingq1_2d_closed_form_spec (v : Fin 4 → ℝ × ℝ) (p : ℝ × ℝ) :
    (mappingq1_transform_real_to_unit_cell_2d v p = .error () ↔
      ¬ 0 < q2d_discriminant v p ∨
        (¬ |q2d_xi_denominator0 v p| > 1 / 10 ^ 10 * q2d_max_x v ∧
         ¬ |q2d_xi_denominator1 v p| > 1 / 10 ^ 10 * q2d_max_y v)) ∧
    (∀ xi eta : ℝ,
      mappingq1_transform_real_to_unit_cell_2d v p = .ok (xi, eta) →
      (eta = q2d_eta1 v p ∨ eta = q2d_eta2 v p) ∧
      |eta - 1 / 2| ≤ |q2d_eta1 v p - 1 / 2| ∧
      |eta - 1 / 2| ≤ |q2d_eta2 v p - 1 / 2| ∧
      (if |q2d_xi_denominator0 v p| > 1 / 10 ^ 10 * q2d_max_x v then
        xi = (p.1 + q2d_subexpr0 v p) / q2d_xi_denominator0 v p
      else
        xi = (q2d_subexpr1 v p + p.2) / q2d_xi_denominator1 v p)) := by
  have heta : (q2d_eta v p = q2d_eta1 v p ∨ q2d_eta v p = q2d_eta2 v p) ∧
      |q2d_eta v p - 1 / 2| ≤ |q2d_eta1 v p - 1 / 2| ∧
      |q2d_eta v p - 1 / 2| ≤ |q2d_eta2 v p - 1 / 2| := by
    rw [q2d_eta]
    split
    · rename_i hlt
      exact ⟨Or.inl rfl, le_refl _, le_of_lt hlt⟩
    · rename_i hge
      exact ⟨Or.inr rfl, not_lt.mp hge, le_refl _⟩
  constructor
  · rw [mappingq1_transform_real_to_unit_cell_2d]
    split
    · rename_i hdisc
      split
      · rename_i hden0
        simp only [reduceCtorEq, false_iff]
        rintro (h | ⟨h0, h1⟩)
        · exact h hdisc
        · exact h0 hden0
      · split
        · rename_i hden1
          simp only [reduceCtorEq, false_iff]
          rintro (h | ⟨h0, h1⟩)
          · exact h hdisc
          · exact h1 hden1
        · rename_i hden0 hden1
          simp only [true_iff]
          exact Or.inr ⟨hden0, hden1⟩
    · rename_i hdisc
      simp only [true_iff]
      exact Or.inl hdisc
  · intro xi eta h
    rw [mappingq1_transform_real_to_unit_cell_2d] at h
    split at h
    · split at h
      · rename_i hden0
        cases h
        refine ⟨heta.1, heta.2.1, heta.2.2, ?_⟩
        rw [if_pos hden0]
      · split at h
        · rename_i hden0 hden1
          cases h
          refine ⟨heta.1, heta.2.1, heta.2.2, ?_⟩
          rw [if_neg hden0]
        · cases h
    · cases h

/-- C3 witness: on the unit square at the real point `(1/2, 1/2)` the
inversion succeeds with `eta = 1/2`, which is within the distance of either
quadratic root from the cell center. -/
theorem mappingq1_2d_closed_form_spec_witness :
    |(1 : ℝ) / 2 - 1 / 2| ≤
      |q2d_eta1 unit_square_vertices ((1 : ℝ) / 2, (1 : ℝ) / 2) - 1 / 2| := by
  have hb : q2d_b unit_square_vertices ((1 : ℝ) / 2, (1 : ℝ) / 2) = 1 := by
    norm_num [q2d_b, unit_square_vertices]
  have hc : q2d_c unit_square_vertices ((1 : ℝ) / 2, (1 : ℝ) / 2) = -(1 / 2) := by
    norm_num [q2d_c, unit_square_vertices]
  have ha : q2d_a unit_square_vertices = 0 := by
    norm_num [q2d_a, unit_square_vertices]
  have hdisc :
      q2d_discriminant unit_square_vertices ((1 : ℝ) / 2, (1 : ℝ) / 2) = 1 := by
    rw [q2d_discriminant, hb, hc, ha]; norm_num
  have heta1 :
      q2d_eta1 unit_square_vertices ((1 : ℝ) / 2, (1 : ℝ) / 2) = 1 / 2 := by
    rw [q2d_eta1, if_pos ⟨by rw [hb]; norm_num,
      by rw [hb, hdisc, Real.sqrt_one]; norm_num⟩, hb, hc]
    norm_num
  have heta2 :
      q2d_eta2 unit_square_vertices ((1 : ℝ) / 2, (1 : ℝ) / 2) = 1 / 2 := by
    rw [q2d_eta2, if_pos ⟨by rw [hb]; norm_num,
      by rw [hb, hdisc, Real.sqrt_one]; norm_num⟩, hb, hc]
    norm_num
  have heta :
      q2d_eta unit_square_vertices ((1 : ℝ) / 2, (1 : ℝ) / 2) = 1 / 2 := by
    rw [q2d_eta, heta1, heta2]; norm_num
  have hsub0 :
      q2d_subexpr0 unit_square_vertices ((1 : ℝ) / 2, (1 : ℝ) / 2) = 0 := by
    rw [q2d_subexpr0, heta]; norm_num [unit_square_vertices]
  have hden0 :
      q2d_xi_denominator0 unit_square_vertices ((1 : ℝ) / 2, (1 : ℝ) / 2) =
        1 := by
    rw [q2d_xi_denominator0, heta, hsub0]; norm_num [unit_square_vertices]
  have hmaxx : q2d_max_x unit_square_vertices = 1 := by
    norm_num [q2d_max_x, unit_square_vertices]
  have hok : mappingq1_transform_real_to_unit_cell_2d unit_square_vertices
      ((1 : ℝ) / 2, (1 : ℝ) / 2) = .ok (1 / 2, 1 / 2) := by
    rw [mappingq1_transform_real_to_unit_cell_2d,
      if_pos (by rw [hdisc]; norm_num),
      if_pos (by rw [hden0, hmaxx]; norm_num), hsub0, hden0, heta]
    norm_num
  exact ((mappingq1_2d_closed_form_spec unit_square_vertices
      ((1 : ℝ) / 2, (1 : ℝ) / 2)).2 (1 / 2) (1 / 2) hok).2.1

theorem n_comp_pos (n_lanes irregular : Nat) (hW : 0 < n_lanes) :
    0 < n_comp n_lanes irregular := by
  unfold n_comp; split <;> omega

theorem n_comp_le (n_lanes irregular : Nat) (h : irregular ≤ n_lanes) :
    n_comp n_lanes irregular ≤ n_lanes := by
  unfold n_comp; split <;> omega

theorem build_cell_level_index_length {α : Type} (old : Nat → α)
    (renumbering : Nat → Nat) (n_lanes : Nat) :
    ∀ (irr : List Nat) (pos : Nat),
      (build_cell_level_index old renumbering n_lanes irr pos).length =
        irr.length * n_lanes
  | [], pos => by simp [build_cell_level_index]
  | a :: rest, pos => by
    simp [build_cell_level_index,
      build_cell_level_index_length old renumbering n_lanes rest]
    ring

theorem active_reads_eq_range (n_lanes : Nat) :
    ∀ (irr : List Nat) (pos : Nat),
      active_reads n_lanes irr pos =
        (List.range (n_comp_sum n_lanes irr)).map (fun j => pos + j)
  | [], pos => by simp [active_reads, n_comp_sum]
  | a :: rest, pos => by
    rw [active_reads, active_reads_eq_range n_lanes rest
      (pos + n_comp n_lanes a)]
    simp only [n_comp_sum, List.map_cons, List.sum_cons, List.range_add,
      List.map_append, List.map_map]
    congr 1
    have hfun : ((fun j => pos + j) ∘ fun x => n_comp n_lanes a + x) =
        fun j => pos + n_comp n_lanes a + j := by
      funext x
      simp only [Function.comp_apply]
      omega
    rw [hfun]

theorem n_comp_sum_le (n_lanes : Nat) :
    ∀ (irr : List Nat), (∀ x ∈ irr, x ≤ n_lanes) →
      n_comp_sum n_lanes irr ≤ irr.length * n_lanes
  | [], _ => by simp [n_comp_sum]
  | a :: rest, h => by
    have h1 := n_comp_le n_lanes a (h a (by simp))
    have h2 := n_comp_sum_le n_lanes rest (fun x hx => h x (by simp [hx]))
    simp only [n_comp_sum, List.map_cons, List.sum_cons, List.length_cons]
    have h3 : (rest.length + 1) * n_lanes = rest.length * n_lanes + n_lanes := by
      ring
    simp only [n_comp_sum] at h2
    omega

theorem build_cell_level_index_get {α : Type} (old : Nat → α)
    (renumbering : Nat → Nat) (n_lanes : Nat) (hW : 0 < n_lanes) :
    ∀ (irr : List Nat) (pos i j : Nat) (hi : i < irr.length),
      j < n_lanes →
      (build_cell_level_index old renumbering n_lanes irr pos).get?
          (i * n_lanes + j) =
        some (old (renumbering (pos + n_comp_sum n_lanes (irr.take i) +
          (if j < n_comp n_lanes (irr.get ⟨i, hi⟩) then j
           else n_comp n_lanes (irr.get ⟨i, hi⟩) - 1))))
  | [], pos, i, j, hi, hj => absurd hi (by simp)
  | a :: rest, pos, 0, j, hi, hj => by
    have hidx : 0 * n_lanes + j = j := by omega
    rw [build_cell_level_index, hidx]
    rw [List.get?_append (by simpa using hj)]
    rw [List.get?_map, List.get?_range hj]
    simp only [Option.map_some', List.take_zero, List.get]
    have hpos := n_comp_pos n_lanes a hW
    by_cases h : j < n_comp n_lanes a
    · simp [n_comp_sum, h]
    · simp only [n_comp_sum, List.map_nil, List.sum_nil, if_neg h]
      have harg : pos + n_comp n_lanes a - 1 =
          pos + 0 + (n_comp n_lanes a - 1) := by omega
      rw [harg]
  | a :: rest, pos, i + 1, j, hi, hj => by
    rw [build_cell_level_index]
    have hsm : (i + 1) * n_lanes = i * n_lanes + n_lanes := by ring
    rw [List.get?_append_right (by
      simp only [List.length_map, List.length_range]
      omega)]
    have harith : (i + 1) * n_lanes + j -
        ((List.range n_lanes).map (fun j =>
          if j < n_comp n_lanes a then
            old (renumbering (pos + j))
          else
            old (renumbering (pos + n_comp n_lanes a - 1)))).length =
        i * n_lanes + j := by
      simp only [List.length_map, List.length_range]
      omega
    rw [harith]
    rw [build_cell_level_index_get old renumbering n_lanes hW rest
      (pos + n_comp n_lanes a) i j (by simpa using hi) hj]
    have hget : (a :: rest).get ⟨i + 1, hi⟩ =
        rest.get ⟨i, by simpa using hi⟩ := rfl
    rw [hget]
    have hsum : n_comp_sum n_lanes ((a :: rest).take (i + 1)) =
        n_comp n_lanes a + n_comp_sum n_lanes (rest.take i) := by
      simp [n_comp_sum, List.take_succ_cons]
    rw [hsum]
    have harith2 : pos + (n_comp n_lanes a + n_comp_sum n_lanes
        (List.take i rest)) = pos + n_comp n_lanes a +
        n_comp_sum n_lanes (List.take i rest) := by omega
    rw [harith2]

/-- C4 (amended).  Cell-batch construction: for every renumbering and batch
layout (one `irregular_cells` entry per batch, each at most the SIMD width
`W`, `0` meaning a full batch), (i) the flat handle array has exactly
`(number of batches) * W` entries; (ii) the renumbering positions read at
active (non-padding) lanes are exactly `0, 1, ..., N-1` in order, where `N`
is the sum of the per-batch active-lane counts — no gaps, no duplicates;
(iii) hence, when the renumbering is a permutation of `0..N-1` (the
source's debug assertion), the cells referenced by active lanes are exactly
the linear cell indices `0..N-1` with no gaps or duplicates; and (iv) the
number of batches is at least `⌈N/W⌉` — the amendment: equality
(claimed "exactly ⌈N/W⌉") holds only when at most the final batch is
irregular, and fails as soon as more than one contiguous group ends in a
padded batch, see the counterexample. -/
theorem cell_batch_construction_spec {α : Type} (old : Nat → α)
    (renumbering : Nat → Nat) (n_lanes : Nat) (irr : List Nat)
    (hW : 0 < n_lanes) (hle : ∀ x ∈ irr, x ≤ n_lanes) :
    (build_cell_level_index old renumbering n_lanes irr 0).length =
      irr.length * n_lanes ∧
    active_reads n_lanes irr 0 = List.range (n_comp_sum n_lanes irr) ∧
    (((List.range (n_comp_sum n_lanes irr)).map renumbering).Perm
        (List.range (n_comp_sum n_lanes irr)) →
      ((active_reads n_lanes irr 0).map renumbering).Perm
        (List.range (n_comp_sum n_lanes irr))) ∧
    (n_comp_sum n_lanes irr + n_lanes - 1) / n_lanes ≤ irr.length := by
  have hreads : active_reads n_lanes irr 0 =
      List.range (n_comp_sum n_lanes irr) := by
    rw [active_reads_eq_range]
    simp
  refine ⟨build_cell_level_index_length old renumbering n_lanes irr 0,
    hreads, ?_, ?_⟩
  · intro hperm
    rw [hreads]
    exact hperm
  · have hsum := n_comp_sum_le n_lanes irr hle
    have hlt : (n_comp_sum n_lanes irr + n_lanes - 1) / n_lanes <
        irr.length + 1 := by
      rw [Nat.div_lt_iff_lt_mul hW]
      have : (irr.length + 1) * n_lanes = irr.length * n_lanes + n_lanes := by
        ring
      omega
    omega

/-- C4 witness: SIMD width 2 with a full batch followed by a padded batch —
flat length 4, active reads `[0, 1, 2]`, coverage under the identity
renumbering, and at least `⌈3/2⌉ = 2` batches. -/
theorem cell_batch_construction_spec_witness :
    active_reads 2 [0, 1] 0 = List.range (n_comp_sum 2 [0, 1]) ∧
    ((active_reads 2 [0, 1] 0).map (fun k => k)).Perm
      (List.range (n_comp_sum 2 [0, 1])) ∧
    (n_comp_sum 2 [0, 1] + 2 - 1) / 2 ≤ ([0, 1] : List Nat).length := by
  have h := cell_batch_construction_spec (fun k : Nat => k) (fun k => k) 2
    [0, 1] (by decide) (by decide)
  exact ⟨h.2.1, h.2.2.1 (by simp), h.2.2.2⟩

/-- C4 counterexample: two contiguous groups of one cell each with SIMD
width 2 — the active-lane counts sum to `N = 2` and the active lanes cover
`{0, 1}`, yet the construction yields `2` batches while `⌈N/W⌉ = 1`,
refuting "exactly ⌈N/W⌉ batches". -/
theorem cell_batch_count_counterexample :
    build_cell_level_index (fun k : Nat => k) (fun k => k) 2 [1, 1] 0 =
      [0, 0, 1, 1] ∧
    n_comp_sum 2 [1, 1] = 2 ∧
    ([1, 1] : List Nat).length = 2 ∧
    (n_comp_sum 2 [1, 1] + 2 - 1) / 2 = 1 ∧
    ([1, 1] : List Nat).length ≠ (n_comp_sum 2 [1, 1] + 2 - 1) / 2 := by
  decide

/-- C5 (amended).  Flat layout of the cell-handle array: the total length is
`(number of batches) * W`, and the handle at flat position `i*W + j` is the
renumbered cell at sequence position `P_i + j` for an active lane
(`j < n_comp_i`) and a duplicate of the last active lane's handle (sequence
position `P_i + n_comp_i - 1`) for a padding lane, where
`P_i = Σ_{k<i} n_comp_k` is the number of active lanes of the preceding
batches.  The amendment: the claimed sequence position `i*W + j` equals
`P_i + j` only when every preceding batch is full; any earlier padded batch
shifts the mapping, see the counterexample. -/
theorem cell_batch_flat_layout {α : Type} (old : Nat → α)
    (renumbering : Nat → Nat) (n_lanes : Nat) (hW : 0 < n_lanes) :
    (∀ (irr : List Nat) (pos : Nat),
      (build_cell_level_index old renumbering n_lanes irr pos).length =
        irr.length * n_lanes) ∧
    (∀ (irr : List Nat) (pos i j : Nat) (hi : i < irr.length),
      j < n_lanes →
      (build_cell_level_index old renumbering n_lanes irr pos).get?
          (i * n_lanes + j) =
        some (old (renumbering (pos + n_comp_sum n_lanes (irr.take i) +
          (if j < n_comp n_lanes (irr.get ⟨i, hi⟩) then j
           else n_comp n_lanes (irr.get ⟨i, hi⟩) - 1))))) :=
  ⟨build_cell_level_index_length old renumbering n_lanes,
   build_cell_level_index_get old renumbering n_lanes hW⟩

/-- C5 witness: width 2, a full batch then a padded batch, identity handles
and renumbering — the padding lane `(batch 1, lane 1)` duplicates the last
active cell, the renumbered cell at sequence position 2. -/
theorem cell_batch_flat_layout_witness :
    (build_cell_level_index (fun k : Nat => k) (fun k => k) 2 [0, 1]
        0).get? (1 * 2 + 1) = some 2 := by
  have h := (cell_batch_flat_layout (fun k : Nat => k) (fun k => k) 2
    (by decide)).2 [0, 1] 0 1 1 (by decide) (by decide)
  rw [h]
  decide

/-- C5 counterexample: width 2 with a padded first batch (`irregular = 1`)
followed by a full batch: the active lane `(batch 1, lane 0)` at flat
position `1*2+0 = 2` holds the renumbered cell at sequence position 1, not
the claimed position `i*W + j = 2`. -/
theorem cell_batch_flat_position_counterexample :
    (build_cell_level_index (fun k : Nat => k) (fun k => k) 2 [1, 0]
        0).get? (1 * 2 + 0) = some 1 ∧
    (build_cell_level_index (fun k : Nat => k) (fun k => k) 2 [1, 0]
        0).get? (1 * 2 + 0) ≠
      some ((fun k : Nat => k) ((fun k : Nat => k) (1 * 2 + 0))) := by
  decide

/-- C6.  Requesting cell-category re-binning (a non-empty
`cell_vectorization_category`) together with a multi-threaded task scheme
(`task_info.scheme != none`) makes the setup check fail with the
configuration error for every such configuration, and the outcome is reached
before — independently of — the per-cell partitioning work. -/
theorem category_threading_incompatibility {σ : Type} (scheme : TaskScheme)
    (cell_vectorization_category : List Nat)
    (partition_work partition_work' : Unit → σ) :
    scheme ≠ TaskScheme.none → cell_vectorization_category ≠ [] →
    compute_dof_info_category_check scheme cell_vectorization_category
        partition_work = .error .categoryWithThreading ∧
    compute_dof_info_category_check scheme cell_vectorization_category
        partition_work =
      compute_dof_info_category_check scheme cell_vectorization_category
        partition_work' := by
  intro hscheme hcat
  have hcond : ¬ (scheme = TaskScheme.none ∨
      cell_vectorization_category = []) := by
    rintro (h | h)
    · exact hscheme h
    · exact hcat h
  constructor
  · rw [compute_dof_info_category_check, if_neg hcond]
  · rw [compute_dof_info_category_check, if_neg hcond,
      compute_dof_info_category_check, if_neg hcond]

/-- C6 witness: the coloring scheme together with a single-entry category
vector is rejected, independently of two different partitioning payloads. -/
theorem category_threading_incompatibility_witness :
    compute_dof_info_category_check TaskScheme.color [1]
        (fun _ => (0 : Nat)) = .error .categoryWithThreading ∧
    compute_dof_info_category_check TaskScheme.color [1]
        (fun _ => (0 : Nat)) =
      compute_dof_info_category_check TaskScheme.color [1]
        (fun _ => (1 : Nat)) :=
  category_threading_incompatibility TaskScheme.color [1]
    (fun _ => (0 : Nat)) (fun _ => (1 : Nat)) (by decide) (by decide)

/-- C7.  Cell-similarity handling of `fill_fe_values`: with polynomial
degree 1 and an incoming `translation` tag, the whole update chain leaves
the contravariant, covariant and volume-element caches and every
higher-derivative output unchanged and returns `translation`; with degree
greater than 1 the similarity is downgraded to `none` — the returned tag is
`none` and the entire result is the same as if the incoming tag had been
`none` (everything recomputed regardless of the incoming tag). -/
theorem fill_fe_values_translation_skip_and_downgrade {n : Nat}
    (polynomial_degree : Nat) (cell_similarity : CellSimilarity)
    (flags : MappingUpdateFlags) (d : ShapeData n) (s : FillState n) :
    (polynomial_degree = 1 → cell_similarity = CellSimilarity.translation →
      fill_fe_values_core polynomial_degree cell_similarity flags d s =
        (CellSimilarity.translation, s)) ∧
    (1 < polynomial_degree →
      (fill_fe_values_core polynomial_degree cell_similarity flags d s).1 =
        CellSimilarity.none ∧
      fill_fe_values_core polynomial_degree cell_similarity flags d s =
        fill_fe_values_core polynomial_degree CellSimilarity.none flags d
          s) := by
  constructor
  · intro hdeg hsim
    subst hdeg hsim
    simp [fill_fe_values_core, maybe_update_Jacobians,
      maybe_update_jacobian_grads, maybe_update_jacobian_pushed_forward_grads,
      maybe_update_jacobian_2nd_derivatives,
      maybe_update_jacobian_pushed_forward_2nd_derivatives,
      maybe_update_jacobian_3rd_derivatives,
      maybe_update_jacobian_pushed_forward_3rd_derivatives]
  · intro hdeg
    have hne : polynomial_degree ≠ 1 := by omega
    constructor
    · simp [fill_fe_values_core, hne]
    · simp [fill_fe_values_core, hne]

/-- C7 witness: with degree 1, an incoming translation tag, all update flags
set and a concrete state, the call returns the translation tag and the state
unchanged. -/
theorem fill_fe_values_translation_skip_witness :
    fill_fe_values_core 1 CellSimilarity.translation all_update_flags
        trivial_shape_data trivial_fill_state =
      (CellSimilarity.translation, trivial_fill_state) :=
  (fill_fe_values_translation_skip_and_downgrade 1
      CellSimilarity.translation all_update_flags trivial_shape_data
      trivial_fill_state).1 rfl rfl

theorem constraint_pool_data_eq_flatten :
    ∀ rows : List (List ℚ), constraint_pool_data rows = rows.flatten
  | [] => rfl
  | r :: rs => by
    simp [constraint_pool_data, constraint_pool_data_eq_flatten rs]

theorem constraint_pool_row_index_aux_get? (start : Nat) :
    ∀ (rows : List (List ℚ)) (i : Nat), i < rows.length →
      (constraint_pool_row_index_aux start rows).get? i =
        some (start + ((rows.take (i + 1)).map List.length).sum)
  | [], i, hi => absurd hi (by simp)
  | r :: rs, 0, hi => by
    simp [constraint_pool_row_index_aux, List.take_succ_cons]
  | r :: rs, i + 1, hi => by
    rw [constraint_pool_row_index_aux, List.get?_cons_succ]
    rw [constraint_pool_row_index_aux_get? (start + r.length) rs i
      (by simpa using hi)]
    simp [List.take_succ_cons, Nat.add_assoc]

theorem constraint_pool_row_index_aux_getLast? :
    ∀ (rows : List (List ℚ)) (start : Nat),
      (start :: constraint_pool_row_index_aux start rows).getLast? =
        some (start + (rows.map List.length).sum)
  | [], start => by simp [constraint_pool_row_index_aux]
  | r :: rs, start => by
    rw [constraint_pool_row_index_aux, List.getLast?_cons_cons,
      constraint_pool_row_index_aux_getLast? rs (start + r.length)]
    simp [Nat.add_assoc]

theorem constraint_pool_data_slice :
    ∀ (rows : List (List ℚ)) (i : Nat) (hi : i < rows.length),
      ((constraint_pool_data rows).drop
          (((rows.take i).map List.length).sum)).take
        (rows.get ⟨i, hi⟩).length = rows.get ⟨i, hi⟩
  | r :: rs, 0, hi => by
    simp only [constraint_pool_data, List.take_zero, List.map_nil,
      List.sum_nil, List.drop_zero, List.get]
    exact List.take_left r (constraint_pool_data rs)
  | r :: rs, i + 1, hi => by
    simp only [constraint_pool_data, List.take_succ_cons, List.map_cons,
      List.sum_cons, List.get]
    rw [List.drop_append (((rs.take i).map List.length).sum)]
    exact constraint_pool_data_slice rs i (by simpa using hi)

theorem constraint_row_at_found (entries : List (List ℚ × Nat)) (i : Nat)
    (hsurj : ∃ e ∈ entries, e.2 = i) :
    ∃ e ∈ entries, e.2 = i ∧ constraint_row_at entries i = e.1 := by
  have hsome : (entries.find? (fun e => e.2 == i)).isSome = true := by
    rw [List.find?_isSome]
    obtain ⟨e, he, hei⟩ := hsurj
    exact ⟨e, he, by simpa using hei⟩
  obtain ⟨e, he⟩ := Option.isSome_iff_exists.mp hsome
  refine ⟨e, List.mem_of_find?_eq_some he, ?_, ?_⟩
  · have := List.find?_some he
    simpa using this
  · rw [constraint_row_at, he]
    rfl

/-- C9.  Constraint pool consistency after `initialize_indices`: with the
pool rows recovered from the content-addressed constraint map (pairwise
distinct coefficient-vector keys; every pool row index hit by some map
entry, which is what the source's non-null assertion at line 1356 checks),
(i) `constraint_pool_row_index` starts at 0; (ii) entry `i+1` is the
cumulative length of the first `i+1` rows, so consecutive entries differ by
exactly the corresponding row length and the sequence is non-decreasing;
(iii) the final entry equals the total length of `constraint_pool_data`;
(iv) the data slice delimited by entries `i` and `i+1` is exactly row `i`;
and (v) no two pool rows hold identical coefficient vectors. -/
theorem constraint_pool_csr_and_dedup (entries : List (List ℚ × Nat))
    (hkeys : entries.Pairwise (fun e e' => e.1 ≠ e'.1))
    (hsurj : ∀ i, i < entries.length → ∃ e ∈ entries, e.2 = i) :
    (constraint_pool_row_index (constraint_rows entries)).get? 0 = some 0 ∧
    (∀ i, i < (constraint_rows entries).length →
      (constraint_pool_row_index (constraint_rows entries)).get? (i + 1) =
        some ((((constraint_rows entries).take (i + 1)).map
          List.length).sum)) ∧
    (constraint_pool_row_index (constraint_rows entries)).getLast? =
      some (constraint_pool_data (constraint_rows entries)).length ∧
    (∀ i (hi : i < (constraint_rows entries).length),
      ((constraint_pool_data (constraint_rows entries)).drop
          ((((constraint_rows entries).take i).map List.length).sum)).take
        ((constraint_rows entries).get ⟨i, hi⟩).length =
        (constraint_rows entries).get ⟨i, hi⟩) ∧
    (∀ i j, i < entries.length → j < entries.length → i ≠ j →
      constraint_row_at entries i ≠ constraint_row_at entries j) := by
  refine ⟨rfl, ?_, ?_, ?_, ?_⟩
  · intro i hi
    rw [constraint_pool_row_index, List.get?_cons_succ]
    rw [constraint_pool_row_index_aux_get? 0 (constraint_rows entries) i hi]
    simp
  · rw [constraint_pool_row_index,
      constraint_pool_row_index_aux_getLast? (constraint_rows entries) 0,
      constraint_pool_data_eq_flatten]
    simp [List.length_flatten]
  · exact constraint_pool_data_slice (constraint_rows entries)
  · intro i j hi hj hij
    obtain ⟨ea, hea_mem, hea_val, hea_row⟩ :=
      constraint_row_at_found entries i (hsurj i hi)
    obtain ⟨eb, heb_mem, heb_val, heb_row⟩ :=
      constraint_row_at_found entries j (hsurj j hj)
    rw [hea_row, heb_row]
    have hne : ea ≠ eb := by
      intro hcontra
      rw [hcontra] at hea_val
      exact hij (hea_val ▸ heb_val ▸ rfl)
    exact hkeys.forall (fun a b h => h.symm) hea_mem heb_mem hne

/-- C9 witness: a two-entry constraint map with rows `[1/2]` and
`[1/3, 2/3]` — the row-index vector starts at 0 and the two pool rows are
distinct. -/
theorem constraint_pool_csr_and_dedup_witness :
    (constraint_pool_row_index (constraint_rows
        [([(1 : ℚ) / 2], 0), ([(1 : ℚ) / 3, (2 : ℚ) / 3], 1)])).get? 0 =
      some 0 ∧
    constraint_row_at [([(1 : ℚ) / 2], 0), ([(1 : ℚ) / 3, (2 : ℚ) / 3], 1)]
        0 ≠
      constraint_row_at
        [([(1 : ℚ) / 2], 0), ([(1 : ℚ) / 3, (2 : ℚ) / 3], 1)] 1 := by
  have h := constraint_pool_csr_and_dedup
    [([(1 : ℚ) / 2], 0), ([(1 : ℚ) / 3, (2 : ℚ) / 3], 1)]
    (of_decide_eq_true (by with_unfolding_all rfl))
    (of_decide_eq_true (by with_unfolding_all rfl))
  exact ⟨h.1, h.2.2.2.2 0 1 (by decide) (by decide) (by decide)⟩
